import Mathlib

/-!
Verification development for the startup-funding dashboard script
`strartup.py`.  The Python source is shallowly embedded: each pandas
column transformation becomes a pure Lean function on lists of records,
and the Streamlit filter widgets become an explicit filter-state record.
Machine floats of the source are modelled by exact rationals; every
fallible cell parser returns an `Option`.
-/

/-- Characters kept by the amount-cleaning regex replacement in
`clean_amount` (the pattern removes everything that is not a digit and
not a decimal point). -/
def keepAmountChar (c : Char) : Bool := c.isDigit || c = '.'

/-- Model of the regex replacement step of `clean_amount` on one cell:
drop every character that is not a digit and not a dot. -/
def stripAmount (s : String) : List Char := s.data.filter keepAmountChar

/-- Numeric value of a digit character. -/
def digitVal (c : Char) : ℕ := c.toNat - 48

/-- Value of a digit string read most-significant-first. -/
def natOfDigits (l : List Char) : ℕ := l.foldl (fun a c => 10 * a + digitVal c) 0

/-- All characters of the list are decimal digits. -/
def allDigits (l : List Char) : Bool := l.all Char.isDigit

/-- Split a character list at every position where `p` holds, dropping the
separators, as in splitting a decimal literal at the dot. -/
def splitOn (p : Char → Bool) : List Char → List (List Char)
  | [] => [[]]
  | c :: cs =>
    if p c then [] :: splitOn p cs
    else
      match splitOn p cs with
      | [] => [[c]]
      | q :: qs => (c :: q) :: qs

/-- Model of pandas `to_numeric(s, errors='coerce')` on a cleaned cell: a
nonempty digit string, optionally with one interior dot, denotes the
evident rational; everything else coerces to null (`none`). -/
def parseDecimal (l : List Char) : Option ℚ :=
  match splitOn (fun c => c = '.') l with
  | [ip] =>
    if ip ≠ [] ∧ allDigits ip then some ((natOfDigits ip : ℕ) : ℚ) else none
  | [ip, fp] =>
    if (ip ++ fp) ≠ [] ∧ allDigits ip = true ∧ allDigits fp = true then
      some (((natOfDigits ip : ℕ) : ℚ) + ((natOfDigits fp : ℕ) : ℚ) / (10 : ℚ) ^ fp.length)
    else none
  | _ => none

/-- Model of `clean_amount` (src/strartup.py:18-25) on one cell: strip
every non-digit, non-dot character; an empty remainder is replaced by
null; the rest goes through the numeric coercion, which yields null on
failure and never raises (the embedding is a total function). -/
def clean_amount (s : String) : Option ℚ :=
  let l := stripAmount s
  if l = [] then none else parseDecimal l

/-- C1: amount cleaning keeps only digits and decimal points; an empty
string after stripping yields null rather than zero; any parse failure is
null (the cleaner is a total `Option`-valued function, so it never
raises); and the documented example "USD 6,50,000" canonicalizes to
650000. -/
theorem claim_C1 :
    (∀ (s : String) (c : Char), c ∈ stripAmount s → (c.isDigit = true ∨ c = '.')) ∧
    (∀ s : String, stripAmount s = [] → clean_amount s = none) ∧
    clean_amount "USD 6,50,000" = some (650000 : ℚ) := by
  refine ⟨?_, ?_, by decide⟩
  · intro s c hc
    have h := (List.mem_filter.mp hc).2
    simpa [keepAmountChar, Bool.or_eq_true, decide_eq_true_eq] using h
  · intro s h
    simp [clean_amount, h]

/-- Witness for C1 at concrete inputs: the digit 6 surviving the example
string satisfies the kept-character property, and a string with no digits
at all cleans to null. -/
theorem claim_C1_witness :
    ('6'.isDigit = true ∨ '6' = '.') ∧ clean_amount "Undisclosed" = none :=
  ⟨claim_C1.1 "USD 6,50,000" '6' (by decide),
   claim_C1.2.1 "Undisclosed" (by decide)⟩

/-- Not-available markers of the pandas CSV reader (the default subset
relevant to this dataset); a cell holding one of these, or an empty cell,
is read as null. -/
def naStrings : List String := ["", "NA", "N/A", "NaN", "nan", "NULL", "null", "None", "n/a"]

/-- Model of reading one CSV cell with the pandas reader: not-available
markers and empty cells become null, every other cell keeps its text. -/
def readCell (c : String) : Option String :=
  if naStrings.contains c then none else some c

/-- Model of the numeric coercion followed by the nullable-integer cast on
one cell of the Year column (src/strartup.py:82): an integral decimal
literal yields its value, anything else is null.  Years in this dataset
are nonnegative. -/
def parseYearCell (s : String) : Option ℕ :=
  match parseDecimal s.data with
  | none => none
  | some q => if q.den = 1 ∧ 0 ≤ q.num then some q.num.toNat else none

/-- Separators accepted by the date parser model. -/
def dateSep (c : Char) : Bool := c = '/' || c = '-'

/-- Model of the coercing datetime parse plus year extraction
(src/strartup.py:72): a cell made of three nonempty numeric fields
separated by slashes or dashes, with a four-digit year field first or
last and small day and month fields, yields the year; every other
cell coerces to null, never to an error. -/
def parseDateYear (s : String) : Option ℕ :=
  match splitOn dateSep s.data with
  | [a, b, c] =>
    if allDigits a ∧ allDigits b ∧ allDigits c ∧ a ≠ [] ∧ b ≠ [] ∧ c ≠ [] then
      if a.length = 4 ∧ natOfDigits b ≤ 12 ∧ natOfDigits c ≤ 31 then
        some (natOfDigits a)
      else if c.length = 4 ∧ natOfDigits a ≤ 31 ∧ natOfDigits b ≤ 31 then
        some (natOfDigits c)
      else none
    else none
  | _ => none

/-- One row of the canonical table (the cleaned dataframe). -/
structure Record where
  startupName : Option String
  city : Option String
  industry : Option String
  investor : Option String
  round : Option String
  date : Option String
  year : Option ℕ
  amount : Option ℚ
deriving DecidableEq

/-- One raw CSV row, one text cell per in-scope column. -/
structure RawRow where
  nameCell : String
  cityCell : String
  industryCell : String
  investorCell : String
  roundCell : String
  dateCell : String
  yearCell : String
  amountCell : String
deriving DecidableEq

/-- A raw CSV file: whether the optional Year and Date columns are
present, and the data rows in file order. -/
structure RawTable where
  hasYear : Bool
  hasDate : Bool
  rows : List RawRow
deriving DecidableEq

/-- Cleaning of one raw row (src/strartup.py:60-95): categorical cells are
kept as read; Year is taken from the Year column when present, otherwise
derived from the Date column, otherwise null; the amount goes through
`clean_amount`.  No cell failure drops the row. -/
def normRow (hasYear hasDate : Bool) (r : RawRow) : Record where
  startupName := readCell r.nameCell
  city := readCell r.cityCell
  industry := readCell r.industryCell
  investor := readCell r.investorCell
  round := readCell r.roundCell
  date := readCell r.dateCell
  year :=
    if hasYear then (readCell r.yearCell).bind parseYearCell
    else if hasDate then (readCell r.dateCell).bind parseDateYear
    else none
  amount := (readCell r.amountCell).bind clean_amount

/-- The normalization pipeline: every raw row yields exactly one canonical
record, in file order. -/
def normalizeTable (t : RawTable) : List Record :=
  t.rows.map (normRow t.hasYear t.hasDate)

/-- The sidebar filter state, one selection list per category
(src/strartup.py:133-152).  Selected years reach the filter as integers. -/
structure Filters where
  years : List ℕ
  cities : List String
  industries : List String
  investors : List String
  rounds : List String
deriving DecidableEq

/-- Membership test of one nullable cell against a selection: a null cell
never matches. -/
def isinOpt {α : Type} [DecidableEq α] (v : Option α) (sel : List α) : Bool :=
  match v with
  | none => false
  | some x => sel.contains x

/-- Year filter step (src/strartup.py:161-164): skipped when the selection
is empty. -/
def yearStep (fs : Filters) (rows : List Record) : List Record :=
  if fs.years = [] then rows else rows.filter (fun r => isinOpt r.year fs.years)

/-- City filter step (src/strartup.py:166-167). -/
def cityStep (fs : Filters) (rows : List Record) : List Record :=
  if fs.cities = [] then rows else rows.filter (fun r => isinOpt r.city fs.cities)

/-- Industry filter step (src/strartup.py:169-170). -/
def industryStep (fs : Filters) (rows : List Record) : List Record :=
  if fs.industries = [] then rows
  else rows.filter (fun r => isinOpt r.industry fs.industries)

/-- Investor filter step (src/strartup.py:172-173). -/
def investorStep (fs : Filters) (rows : List Record) : List Record :=
  if fs.investors = [] then rows
  else rows.filter (fun r => isinOpt r.investor fs.investors)

/-- Funding-round filter step (src/strartup.py:175-176). -/
def roundStep (fs : Filters) (rows : List Record) : List Record :=
  if fs.rounds = [] then rows else rows.filter (fun r => isinOpt r.round fs.rounds)

/-- The filter application block (src/strartup.py:159-176): the five
category filters are applied in sequence, each skipped when its selection
is empty. -/
def applyFilters (fs : Filters) (rows : List Record) : List Record :=
  roundStep fs (investorStep fs (industryStep fs (cityStep fs (yearStep fs rows))))

/-- C2: a category predicate whose selection set is empty is a no-op; the
filtered table equals the canonical table restricted only by the other
active predicates, for each of the five categories. -/
theorem claim_C2 (fs : Filters) (rows : List Record) :
    (fs.years = [] → applyFilters fs rows =
      roundStep fs (investorStep fs (industryStep fs (cityStep fs rows)))) ∧
    (fs.cities = [] → applyFilters fs rows =
      roundStep fs (investorStep fs (industryStep fs (yearStep fs rows)))) ∧
    (fs.industries = [] → applyFilters fs rows =
      roundStep fs (investorStep fs (cityStep fs (yearStep fs rows)))) ∧
    (fs.investors = [] → applyFilters fs rows =
      roundStep fs (industryStep fs (cityStep fs (yearStep fs rows)))) ∧
    (fs.rounds = [] → applyFilters fs rows =
      investorStep fs (industryStep fs (cityStep fs (yearStep fs rows)))) := by
  refine ⟨fun h => ?_, fun h => ?_, fun h => ?_, fun h => ?_, fun h => ?_⟩
  · simp [applyFilters, yearStep, h]
  · simp [applyFilters, cityStep, h]
  · simp [applyFilters, industryStep, h]
  · simp [applyFilters, investorStep, h]
  · simp [applyFilters, roundStep, h]

/-- A sample all-null record used by concrete witnesses. -/
def recNone : Record := ⟨none, none, none, none, none, none, none, none⟩

/-- Witness for C2 at a concrete input: with every selection empty, the
year predicate is a no-op on a one-row table. -/
theorem claim_C2_witness :
    applyFilters ⟨[], [], [], [], []⟩ [recNone] =
      roundStep ⟨[], [], [], [], []⟩ (investorStep ⟨[], [], [], [], []⟩
        (industryStep ⟨[], [], [], [], []⟩ (cityStep ⟨[], [], [], [], []⟩ [recNone]))) :=
  (claim_C2 ⟨[], [], [], [], []⟩ [recNone]).1 rfl

/-- A concrete raw table with one known and one missing amount, used to
settle C4. -/
def rawC4 : RawTable :=
  ⟨false, true,
   [⟨"Alpha", "Pune", "Tech", "X", "Seed", "05/07/2018", "", "100"⟩,
    ⟨"Beta", "Delhi", "Tech", "Y", "Seed", "05/07/2018", "", ""⟩]⟩

/-- C4 counterexample: the normalization of `rawC4` leaves the missing
amount null although another row has a known amount, so no mean
imputation takes place before filtering and the canonical table does
contain a null amount. -/
theorem claim_C4_counterexample :
    (normalizeTable rawC4).map (fun r => r.amount) = [some (100 : ℚ), none] ∧
    (∃ r ∈ normalizeTable rawC4, r.amount ≠ none) ∧
    (∃ r ∈ normalizeTable rawC4, r.amount = none) := by
  decide

/-- C4 corrected: normalization performs no imputation at all; the amount
of every canonical record is exactly the cleaned value of the raw amount
cell of the same row, so missing amounts stay null even when other rows
have known amounts (as `rawC4` shows). -/
theorem claim_C4_amended :
    (∀ t : RawTable, (normalizeTable t).map (fun r => r.amount) =
      t.rows.map (fun row => (readCell row.amountCell).bind clean_amount)) ∧
    (∃ r ∈ normalizeTable rawC4, r.amount ≠ none) ∧
    (∃ r ∈ normalizeTable rawC4, r.amount = none) := by
  refine ⟨fun t => ?_, by decide, by decide⟩
  simp [normalizeTable, normRow]

/-- A concrete raw table whose single row has an unparseable date, used to
settle C5. -/
def rawC5 : RawTable :=
  ⟨false, true, [⟨"Gamma", "Pune", "Tech", "Z", "Seed", "garbage", "", "500"⟩]⟩

/-- C5 counterexample: the only row of `rawC5` has a date no format can
parse, yet the canonical table still has one row (nothing is dropped and
no drop count exists); the row is kept with a null Year. -/
theorem claim_C5_counterexample :
    (readCell "garbage").bind parseDateYear = none ∧
    (normalizeTable rawC5).length = 1 ∧
    (normalizeTable rawC5).map (fun r => r.year) = [none] := by
  decide

/-- C5 corrected: normalization never drops a row; a row whose date cannot
be parsed is kept in the canonical table with a null Year (so its
derived date fields are null), and no drop count is maintained. -/
theorem claim_C5_amended :
    (∀ t : RawTable, (normalizeTable t).length = t.rows.length) ∧
    (∀ (t : RawTable) (i : ℕ) (row : RawRow),
      t.hasYear = false → t.hasDate = true → t.rows[i]? = some row →
      (readCell row.dateCell).bind parseDateYear = none →
      ((normalizeTable t).map (fun r => r.year))[i]? = some none) := by
  constructor
  · intro t
    simp [normalizeTable]
  · intro t i row h1 h2 hrow hdate
    simp only [normalizeTable, List.map_map, List.getElem?_map, hrow, Option.map_some']
    simp [Function.comp, normRow, h1, h2, hdate]

/-- Witness for C5 corrected, applied to the concrete table `rawC5` at
index 0. -/
theorem claim_C5_amended_witness :
    ((normalizeTable rawC5).map (fun r => r.year))[0]? = some none :=
  claim_C5_amended.2 rawC5 0 ⟨"Gamma", "Pune", "Tech", "Z", "Seed", "garbage", "", "500"⟩
    rfl rfl (by decide) (by decide)

/-- Lexicographic comparison of character lists by code point, the string
order under which a sorting groupby emits its group keys. -/
def lexLt : List Char → List Char → Bool
  | [], [] => false
  | [], _ :: _ => true
  | _ :: _, [] => false
  | a :: as, b :: bs =>
    if a.toNat < b.toNat then true
    else if a.toNat = b.toNat then lexLt as bs
    else false

/-- Strict lexicographic order on strings. -/
def strLt (a b : String) : Bool := lexLt a.data b.data

/-- The strict key order as a relation. -/
def Rlt (a b : String) : Prop := strLt a b = true

theorem lexLt_irrefl (l : List Char) : lexLt l l = false := by
  induction l with
  | nil => rfl
  | cons c cs ih => simp [lexLt, ih]

theorem lexLt_asymm : ∀ (a b : List Char), lexLt a b = true → lexLt b a = false := by
  intro a
  induction a with
  | nil =>
    intro b h
    cases b with
    | nil => simp [lexLt] at h
    | cons d ds => rfl
  | cons c cs ih =>
    intro b h
    cases b with
    | nil => simp [lexLt] at h
    | cons d ds =>
      by_cases h1 : c.toNat < d.toNat
      · have h2 : ¬ d.toNat < c.toNat := by omega
        have h3 : ¬ d.toNat = c.toNat := by omega
        simp [lexLt, h2, h3]
      · by_cases h2 : c.toNat = d.toNat
        · have h3 : ¬ d.toNat < c.toNat := by omega
          have h5 : lexLt cs ds = true := by simpa [lexLt, h1, h2] using h
          simp [lexLt, h3, h2.symm, ih ds h5]
        · simp [lexLt, h1, h2] at h

theorem lexLt_trans : ∀ (a b c : List Char),
    lexLt a b = true → lexLt b c = true → lexLt a c = true := by
  intro a
  induction a with
  | nil =>
    intro b c hab hbc
    cases c with
    | nil =>
      cases b with
      | nil => simp [lexLt] at hab
      | cons d ds => simp [lexLt] at hbc
    | cons e es => rfl
  | cons x xs ih =>
    intro b c hab hbc
    cases b with
    | nil => simp [lexLt] at hab
    | cons y ys =>
      cases c with
      | nil => simp [lexLt] at hbc
      | cons z zs =>
        by_cases h1 : x.toNat < y.toNat <;> by_cases h2 : y.toNat < z.toNat
        · have : x.toNat < z.toNat := by omega
          simp [lexLt, this]
        · by_cases h3 : y.toNat = z.toNat
          · have : x.toNat < z.toNat := by omega
            simp [lexLt, this]
          · simp [lexLt, h2, h3] at hbc
        · by_cases h3 : x.toNat = y.toNat
          · have : x.toNat < z.toNat := by omega
            simp [lexLt, this]
          · simp [lexLt, h1, h3] at hab
        · by_cases h3 : x.toNat = y.toNat <;> by_cases h4 : y.toNat = z.toNat
          · have h5 : lexLt xs ys = true := by simpa [lexLt, h1, h3] using hab
            have h6 : lexLt ys zs = true := by simpa [lexLt, h2, h4] using hbc
            have h7 : ¬ x.toNat < z.toNat := by omega
            have h8 : x.toNat = z.toNat := by omega
            simp [lexLt, h7, h8, ih ys zs h5 h6]
          · simp [lexLt, h2, h4] at hbc
          · simp [lexLt, h1, h3] at hab
          · simp [lexLt, h1, h3] at hab

theorem lexLt_connex : ∀ (a b : List Char),
    lexLt a b = false → lexLt b a = false → a = b := by
  intro a
  induction a with
  | nil =>
    intro b hab _
    cases b with
    | nil => rfl
    | cons d ds => simp [lexLt] at hab
  | cons c cs ih =>
    intro b hab hba
    cases b with
    | nil => simp [lexLt] at hba
    | cons d ds =>
      by_cases h1 : c.toNat < d.toNat
      · simp [lexLt, h1] at hab
      · by_cases h2 : d.toNat < c.toNat
        · simp [lexLt, h2] at hba
        · have h3 : c.toNat = d.toNat := by omega
          have hcd : c = d := Char.ext (UInt32.ext h3)
          have h5 : lexLt cs ds = false := by simpa [lexLt, h1, h3] using hab
          have h6 : lexLt ds cs = false := by simpa [lexLt, h2, h3.symm] using hba
          rw [hcd, ih ds h5 h6]

instance : IsTrans String Rlt :=
  ⟨fun a b c => lexLt_trans a.data b.data c.data⟩

instance : IsIrrefl String Rlt :=
  ⟨fun a h => by simp [Rlt, strLt, lexLt_irrefl] at h⟩

instance : IsAntisymm String Rlt :=
  ⟨fun a b h1 h2 => absurd h1 (by simp [Rlt, strLt, lexLt_asymm _ _ h2])⟩

theorem strLt_connex (a b : String) (h1 : a ≠ b) (h2 : strLt a b = false) :
    strLt b a = true := by
  cases h3 : strLt b a
  · exfalso
    apply h1
    exact String.ext (lexLt_connex a.data b.data h2 h3)
  · rfl

/-- Ordered duplicate-free insertion of one group key. -/
def insertKey (s : String) : List String → List String
  | [] => [s]
  | y :: ys =>
    if s = y then y :: ys
    else if strLt s y then s :: y :: ys
    else y :: insertKey s ys

/-- Sorted list of the distinct non-null keys of a column, as produced by
a sorting groupby: group keys come out sorted and without duplicates,
null keys are dropped. -/
def sortedKeys (l : List String) : List String := l.foldr insertKey []

theorem mem_insertKey (x a : String) (l : List String) :
    x ∈ insertKey a l ↔ x = a ∨ x ∈ l := by
  induction l with
  | nil => simp [insertKey]
  | cons y ys ih =>
    by_cases h1 : a = y
    · subst h1
      rw [insertKey, if_pos rfl]
      constructor
      · exact Or.inr
      · rintro (rfl | h)
        · exact List.mem_cons_self _ _
        · exact h
    · by_cases h2 : strLt a y = true
      · simp only [insertKey, if_neg h1, if_pos h2, List.mem_cons]
      · simp only [insertKey, if_neg h1, if_neg h2, List.mem_cons, ih]
        tauto

theorem sorted_insertKey (a : String) (l : List String) (h : l.Pairwise Rlt) :
    (insertKey a l).Pairwise Rlt := by
  induction l with
  | nil => simp [insertKey]
  | cons y ys ih =>
    rcases List.pairwise_cons.mp h with ⟨hy, hys⟩
    by_cases h1 : a = y
    · simpa [insertKey, h1] using h
    · by_cases h2 : strLt a y = true
      · simp only [insertKey, if_neg h1, if_pos h2]
        refine List.pairwise_cons.mpr ⟨?_, h⟩
        intro z hz
        rcases List.mem_cons.mp hz with rfl | hz2
        · exact h2
        · exact lexLt_trans _ _ _ h2 (hy z hz2)
      · simp only [insertKey, if_neg h1, if_neg h2]
        refine List.pairwise_cons.mpr ⟨?_, ih hys⟩
        intro z hz
        rcases (mem_insertKey z a ys).mp hz with rfl | hz2
        · exact strLt_connex z y h1 (by simpa using h2)
        · exact hy z hz2

theorem sorted_sortedKeys (l : List String) : (sortedKeys l).Pairwise Rlt := by
  induction l with
  | nil => simp [sortedKeys]
  | cons x xs ih => exact sorted_insertKey x (sortedKeys xs) ih

theorem mem_sortedKeys (x : String) (l : List String) :
    x ∈ sortedKeys l ↔ x ∈ l := by
  induction l with
  | nil => simp [sortedKeys]
  | cons y ys ih =>
    show x ∈ insertKey y (sortedKeys ys) ↔ _
    rw [mem_insertKey]
    simp [ih]

theorem sortedKeys_perm_inv (l1 l2 : List String) (h : l1.Perm l2) :
    sortedKeys l1 = sortedKeys l2 := by
  have s1 := sorted_sortedKeys l1
  have s2 := sorted_sortedKeys l2
  refine List.eq_of_perm_of_sorted ?_ s1 s2
  refine (List.perm_ext_iff_of_nodup (List.Sorted.nodup s1) (List.Sorted.nodup s2)).mpr ?_
  intro a
  rw [mem_sortedKeys, mem_sortedKeys]
  exact h.mem_iff

/-- Model of a sorting groupby followed by a per-group sum over the value
column (src/strartup.py:200): null keys are dropped, null values
contribute nothing, so a group with only null values sums to zero. -/
def sum_by (key : Record → Option String) (val : Record → Option ℚ)
    (rows : List Record) : List (String × ℚ) :=
  (sortedKeys (rows.filterMap key)).map
    (fun k => (k, ((rows.filter (fun r => key r = some k)).filterMap val).sum))

/-- Model of value counting of a column (src/strartup.py:240): for every
distinct non-null value, the number of rows holding it. -/
def count_by (key : Record → Option String) (rows : List Record) :
    List (String × ℕ) :=
  (sortedKeys (rows.filterMap key)).map
    (fun k => (k, (rows.filter (fun r => key r = some k)).length))

/-- Model of a groupby mean: the mean of the non-null contributors of
every group; a group with no non-null contributor is null. -/
def mean_by (key : Record → Option String) (val : Record → Option ℚ)
    (rows : List Record) : List (String × Option ℚ) :=
  (sortedKeys (rows.filterMap key)).map
    (fun k =>
      (k,
       let c := (rows.filter (fun r => key r = some k)).filterMap val
       if c = [] then none else some (c.sum / (c.length : ℚ))))

/-- Total funding metric (src/strartup.py:182): a sum over the amount
column that is null when there is no non-null amount at all. -/
def total_funding (rows : List Record) : Option ℚ :=
  let v := rows.filterMap (fun r => r.amount)
  if v = [] then none else some v.sum

/-- Average ticket metric (src/strartup.py:184): guarded by the all-null
test of the source; otherwise the mean of the non-null amounts. -/
def avg_ticket (rows : List Record) : Option ℚ :=
  if rows.all (fun r => (r.amount).isNone) then none
  else
    some ((rows.filterMap (fun r => r.amount)).sum /
      ((rows.filterMap (fun r => r.amount)).length : ℚ))

/-- First group attaining the maximal value, as the index-of-maximum over
a groupby result returns the first maximal index. -/
def idxmaxAux (best : String × ℚ) : List (String × ℚ) → String
  | [] => best.1
  | p :: ps => if best.2 < p.2 then idxmaxAux p ps else idxmaxAux best ps

/-- Index of maximum over a grouped aggregate; null on an empty result. -/
def idxmaxPairs : List (String × ℚ) → Option String
  | [] => none
  | p :: ps => some (idxmaxAux p ps)

/-- Top-city metric (src/strartup.py:185): guarded by the all-null test of
the source, otherwise the city with maximal summed funding. -/
def top_city (rows : List Record) : Option String :=
  if rows.all (fun r => (r.amount).isNone) then none
  else idxmaxPairs (sum_by (fun r => r.city) (fun r => r.amount) rows)

/-- C3: when every row of the filtered table has a null amount, the total
funding, the mean ticket size and the arg-max city are all reported
unavailable; in particular total funding is never reported as zero. -/
theorem claim_C3 (rows : List Record) (h : ∀ r ∈ rows, r.amount = none) :
    total_funding rows = none ∧ avg_ticket rows = none ∧
    top_city rows = none ∧ total_funding rows ≠ some 0 := by
  have hv : rows.filterMap (fun r => r.amount) = [] :=
    List.filterMap_eq_nil_iff.mpr h
  have ha : rows.all (fun r => (r.amount).isNone) = true := by
    rw [List.all_eq_true]
    intro r hr
    simp [h r hr]
  refine ⟨?_, ?_, ?_, ?_⟩ <;> simp [total_funding, avg_ticket, top_city, hv, ha]

/-- Witness for C3 on a concrete one-row table whose amount is null. -/
theorem claim_C3_witness :
    total_funding [recNone] = none ∧ avg_ticket [recNone] = none ∧
    top_city [recNone] = none ∧ total_funding [recNone] ≠ some 0 :=
  claim_C3 [recNone] (by decide)

/-- C7: the grouped aggregations are invariant under permutation of the
input rows; permuted tables yield the same group-to-value association
lists for sums, counts and means. -/
theorem claim_C7 (key : Record → Option String) (val : Record → Option ℚ)
    (rows1 rows2 : List Record) (h : rows1.Perm rows2) :
    sum_by key val rows1 = sum_by key val rows2 ∧
    count_by key rows1 = count_by key rows2 ∧
    mean_by key val rows1 = mean_by key val rows2 := by
  have hkeys : sortedKeys (rows1.filterMap key) = sortedKeys (rows2.filterMap key) :=
    sortedKeys_perm_inv _ _ (h.filterMap key)
  have hfil : ∀ k : String,
      (rows1.filter (fun r => key r = some k)).Perm
        (rows2.filter (fun r => key r = some k)) :=
    fun k => h.filter _
  have hsum : ∀ k : String,
      ((rows1.filter (fun r => key r = some k)).filterMap val).sum =
        ((rows2.filter (fun r => key r = some k)).filterMap val).sum :=
    fun k => ((hfil k).filterMap val).sum_eq
  have hlen : ∀ k : String,
      (rows1.filter (fun r => key r = some k)).length =
        (rows2.filter (fun r => key r = some k)).length :=
    fun k => (hfil k).length_eq
  have hclen : ∀ k : String,
      ((rows1.filter (fun r => key r = some k)).filterMap val).length =
        ((rows2.filter (fun r => key r = some k)).filterMap val).length :=
    fun k => ((hfil k).filterMap val).length_eq
  refine ⟨?_, ?_, ?_⟩
  · unfold sum_by
    rw [hkeys]
    exact List.map_congr_left (fun k _ => by rw [hsum k])
  · unfold count_by
    rw [hkeys]
    exact List.map_congr_left (fun k _ => by rw [hlen k])
  · unfold mean_by
    rw [hkeys]
    refine List.map_congr_left (fun k _ => ?_)
    simp only
    by_cases hc :
        List.filterMap val (List.filter (fun r => decide (key r = some k)) rows1) = []
    · have hpc := (hfil k).filterMap val
      rw [hc] at hpc
      have hc2 := hpc.symm.eq_nil
      rw [if_pos hc, if_pos hc2]
    · have hc2 : ¬ List.filterMap val
          (List.filter (fun r => decide (key r = some k)) rows2) = [] := by
        intro h2
        apply hc
        have hpc := (hfil k).filterMap val
        rw [h2] at hpc
        exact hpc.eq_nil
      rw [if_neg hc, if_neg hc2, hsum k, hclen k]

/-- A sample record for concrete witnesses: startup A in Pune, year 2018,
amount 10. -/
def recA : Record :=
  ⟨some "A", some "Pune", some "Tech", some "X", some "Seed", none, some 2018, some 10⟩

/-- A sample record for concrete witnesses: startup B in Delhi, year 2019,
amount 5. -/
def recB : Record :=
  ⟨some "B", some "Delhi", some "Tech", some "Y", some "Seed", none, some 2019, some 5⟩

/-- Witness for C7 on a concrete two-row table and its swap. -/
theorem claim_C7_witness :
    sum_by (fun r => r.startupName) (fun r => r.amount) [recA, recB] =
      sum_by (fun r => r.startupName) (fun r => r.amount) [recB, recA] ∧
    count_by (fun r => r.startupName) [recA, recB] =
      count_by (fun r => r.startupName) [recB, recA] ∧
    mean_by (fun r => r.startupName) (fun r => r.amount) [recA, recB] =
      mean_by (fun r => r.startupName) (fun r => r.amount) [recB, recA] :=
  claim_C7 (fun r => r.startupName) (fun r => r.amount) [recA, recB] [recB, recA]
    (by decide)

/-- Stable descending insertion: the inserted entry goes before the first
entry whose value does not exceed it, so that among equal values the
entry coming from earlier in the series stays first. -/
def insertDesc (x : String × ℚ) : List (String × ℚ) → List (String × ℚ)
  | [] => [x]
  | y :: ys => if y.2 ≤ x.2 then x :: y :: ys else y :: insertDesc x ys

/-- Stable sort of a grouped aggregate by descending value, modelling the
keep-first n-largest selection of the source. -/
def sortDesc (l : List (String × ℚ)) : List (String × ℚ) :=
  l.foldr insertDesc []

/-- Model of the n-largest selection over a grouped aggregate
(src/strartup.py:200 and 45): the first n entries of the stable
descending sort of the key-sorted aggregate. -/
def topN (l : List (String × ℚ)) (n : ℕ) : List (String × ℚ) :=
  (sortDesc l).take n

/-- Groupby-sum of amounts by startup name, as used by the top-10 chart
and the markdown export. -/
def groupbyNameSum (rows : List Record) : List (String × ℚ) :=
  sum_by (fun r => r.startupName) (fun r => r.amount) rows

/-- Ranking order realized by the n-largest selection: strictly larger
value first; on equal values the lexicographically smaller group key
first. -/
def rankRel (a b : String × ℚ) : Prop :=
  b.2 < a.2 ∨ (a.2 = b.2 ∧ Rlt a.1 b.1)

/-- A concrete two-row table whose groups tie on total amount, with the
later group key occurring first in table order, used to settle C6. -/
def rowsC6 : List Record :=
  [⟨some "b", some "Pune", none, none, none, none, some 2018, some 10⟩,
   ⟨some "a", some "Delhi", none, none, none, none, some 2018, some 10⟩]

/-- C6 counterexample: groups "b" and "a" tie at 10, and "b" appears
first in canonical table order, yet the top-1 selection returns "a":
the tie is broken by the sorted group key, not by first occurrence. -/
theorem claim_C6_counterexample :
    (rowsC6.map (fun r => r.startupName)) = [some "b", some "a"] ∧
    topN (groupbyNameSum rowsC6) 1 = [("a", (10 : ℚ))] := by
  refine ⟨rfl, ?_⟩
  have hkeys : sortedKeys (rowsC6.filterMap (fun r => r.startupName)) = ["a", "b"] := by
    decide
  have ha : List.filterMap (fun r => r.amount)
      (List.filter (fun r => decide (r.startupName = some "a")) rowsC6) = [(10 : ℚ)] := by
    decide
  have hb : List.filterMap (fun r => r.amount)
      (List.filter (fun r => decide (r.startupName = some "b")) rowsC6) = [(10 : ℚ)] := by
    decide
  have hsum : ([(10 : ℚ)]).sum = 10 := by simp
  unfold topN groupbyNameSum sum_by
  rw [hkeys]
  simp only [List.map_cons, List.map_nil]
  rw [ha, hb, hsum]
  decide

theorem mem_insertDesc (z x : String × ℚ) (l : List (String × ℚ)) :
    z ∈ insertDesc x l ↔ z = x ∨ z ∈ l := by
  induction l with
  | nil => simp [insertDesc]
  | cons y ys ih =>
    by_cases hc : y.2 ≤ x.2
    · simp only [insertDesc, if_pos hc, List.mem_cons]
    · simp only [insertDesc, if_neg hc, List.mem_cons, ih]
      tauto

theorem perm_insertDesc (x : String × ℚ) (l : List (String × ℚ)) :
    (insertDesc x l).Perm (x :: l) := by
  induction l with
  | nil => simp [insertDesc]
  | cons y ys ih =>
    by_cases hc : y.2 ≤ x.2
    · simp [insertDesc, hc]
    · simp only [insertDesc, if_neg hc]
      exact (ih.cons y).trans (List.Perm.swap x y ys)

theorem perm_sortDesc (l : List (String × ℚ)) : (sortDesc l).Perm l := by
  induction l with
  | nil => simp [sortDesc]
  | cons x xs ih =>
    show (insertDesc x (sortDesc xs)).Perm (x :: xs)
    exact (perm_insertDesc x (sortDesc xs)).trans (ih.cons x)

theorem pairwise_insertDesc (x : String × ℚ) (l : List (String × ℚ))
    (hk : ∀ y ∈ l, Rlt x.1 y.1) (h : l.Pairwise rankRel) :
    (insertDesc x l).Pairwise rankRel := by
  induction l with
  | nil => simp [insertDesc, List.pairwise_singleton]
  | cons y ys ih =>
    rcases List.pairwise_cons.mp h with ⟨hy, hys⟩
    by_cases hc : y.2 ≤ x.2
    · simp only [insertDesc, if_pos hc]
      refine List.pairwise_cons.mpr ⟨?_, h⟩
      intro z hz
      have hz2 : z.2 ≤ x.2 := by
        rcases List.mem_cons.mp hz with rfl | hz3
        · exact hc
        · rcases hy z hz3 with h4 | ⟨h4, _⟩
          · exact le_trans (le_of_lt h4) hc
          · exact le_trans (le_of_eq h4.symm) hc
      rcases lt_or_eq_of_le hz2 with h5 | h5
      · exact Or.inl h5
      · exact Or.inr ⟨h5.symm, hk z hz⟩
    · simp only [insertDesc, if_neg hc]
      refine List.pairwise_cons.mpr ⟨?_, ih (fun y2 hy2 => hk y2 (List.mem_cons_of_mem y hy2)) hys⟩
      intro z hz
      rcases (mem_insertDesc z x ys).mp hz with rfl | hz2
      · exact Or.inl (lt_of_not_le hc)
      · exact hy z hz2

theorem pairwise_sortDesc (l : List (String × ℚ))
    (h : l.Pairwise (fun a b => Rlt a.1 b.1)) :
    (sortDesc l).Pairwise rankRel := by
  induction l with
  | nil => simp [sortDesc]
  | cons x xs ih =>
    rcases List.pairwise_cons.mp h with ⟨hx, hxs⟩
    show (insertDesc x (sortDesc xs)).Pairwise rankRel
    refine pairwise_insertDesc x (sortDesc xs) ?_ (ih hxs)
    intro y hy
    exact hx y ((perm_sortDesc xs).mem_iff.mp hy)

/-- C6 corrected: the n-largest selection returns the n largest entries of
the grouped aggregate sorted descending by value, but on value ties the
entry ranked first is the one whose group key comes first in the sorted
group-key order (the groupby emits keys sorted, and the keep-first
n-largest selection is stable on that order), not the group that appeared
earliest in canonical table order. -/
theorem claim_C6_amended (rows : List Record) (n : ℕ) :
    (sortDesc (groupbyNameSum rows)).Perm (groupbyNameSum rows) ∧
    (sortDesc (groupbyNameSum rows)).Pairwise rankRel ∧
    (topN (groupbyNameSum rows) n).length = min n (groupbyNameSum rows).length ∧
    ∀ p ∈ topN (groupbyNameSum rows) n, p ∈ groupbyNameSum rows := by
  refine ⟨perm_sortDesc _, ?_, ?_, ?_⟩
  · apply pairwise_sortDesc
    unfold groupbyNameSum sum_by
    rw [List.pairwise_map]
    exact sorted_sortedKeys _
  · rw [topN, List.length_take, (perm_sortDesc _).length_eq]
  · intro p hp
    exact (perm_sortDesc _).mem_iff.mp (List.take_subset n _ hp)

/-- Outcome of executing a fragment of the script: normal completion, or
an unhandled name-resolution error for an undefined name. -/
inductive PyResult where
  | ok : PyResult
  | nameError : String → PyResult
deriving DecidableEq

/-- The modules imported by the script (src/strartup.py:2-8): the names a
module-level expression can resolve. -/
def importedModules : List String :=
  ["streamlit", "pandas", "numpy", "plotly.express", "plotly.graph_objects",
   "io", "datetime"]

/-- Model of the background-image upload handler (src/strartup.py:116-129):
with no upload the branch is skipped and the page renders; with an upload
the handler evaluates the name base64, which resolves only if some import
bound it, and otherwise raises an unhandled name error. -/
def bgUploadHandler (upload : Option (List ℕ)) : PyResult :=
  match upload with
  | none => PyResult.ok
  | some _ =>
    if importedModules.contains "base64" then PyResult.ok
    else PyResult.nameError "base64"

/-- C9: the module never imports base64, so every execution in which a
background image is uploaded hits an unhandled name error for base64,
while executions without an upload complete normally. -/
theorem claim_C9 :
    importedModules.contains "base64" = false ∧
    bgUploadHandler none = PyResult.ok ∧
    ∀ u : List ℕ, bgUploadHandler (some u) = PyResult.nameError "base64" := by
  refine ⟨by decide, rfl, fun u => ?_⟩
  simp [bgUploadHandler, importedModules]

/-- The default selection of the Year multiselect (src/strartup.py:133-134):
all distinct non-null years of the canonical table; the order shown in
the widget is immaterial to the filter, which consumes the selection as
a set. -/
def defaultYears (rows : List Record) : List ℕ :=
  (rows.filterMap (fun r => r.year)).dedup

/-- The filtered table right after initial load: the Year selection holds
its default and every other selection is empty (their defaults are
empty). -/
def initialFiltered (rows : List Record) : List Record :=
  applyFilters ⟨defaultYears rows, [], [], [], []⟩ rows

/-- C10: on initial load the Year multiselect defaults to all non-null
years present; whenever that set is nonempty the year predicate is
active, so every row with a null year is excluded from the default
filtered table, and the initial view differs from the full canonical
table as soon as some row lacks a year. -/
theorem claim_C10 (rows : List Record) :
    (∀ y : ℕ, y ∈ defaultYears rows ↔ ∃ r ∈ rows, r.year = some y) ∧
    (defaultYears rows ≠ [] → ∀ r ∈ initialFiltered rows, r.year ≠ none) ∧
    (defaultYears rows ≠ [] → (∃ r ∈ rows, r.year = none) →
      initialFiltered rows ≠ rows) := by
  have hstep : ∀ h : defaultYears rows ≠ [],
      initialFiltered rows =
        rows.filter (fun r => isinOpt r.year (defaultYears rows)) := by
    intro h
    simp [initialFiltered, applyFilters, cityStep, industryStep, investorStep,
      roundStep, yearStep, h]
  have hpart2 : defaultYears rows ≠ [] →
      ∀ r ∈ initialFiltered rows, r.year ≠ none := by
    intro h r hr
    rw [hstep h] at hr
    have hp := List.of_mem_filter hr
    intro hnone
    rw [hnone] at hp
    simp [isinOpt] at hp
  refine ⟨?_, hpart2, ?_⟩
  · intro y
    rw [defaultYears, List.mem_dedup, List.mem_filterMap]
  · intro h hex heq
    rcases hex with ⟨r0, hr0, hnone⟩
    have hmem : r0 ∈ initialFiltered rows := by rw [heq]; exact hr0
    exact absurd hnone (hpart2 h r0 hmem)

/-- Witness for C10 on a concrete table with one dated and one undated
row: the default selection is nonempty and an undated row exists, so the
initial view is strictly smaller than the canonical table. -/
theorem claim_C10_witness :
    initialFiltered [recA, recNone] ≠ [recA, recNone] :=
  (claim_C10 [recA, recNone]).2.2 (by decide) (by decide)

